import Mathlib

/-!
Verification of the AiStockScout repository's parsing and orchestration layer.

The development shallowly embeds the TypeScript source:
* JavaScript numbers are idealised as exact rationals (`ℚ`); `NaN` is
  represented by `Option.none` at the points where `parseFloat` / `parseInt`
  can fail.  Float rounding and overflow-to-infinity are outside the model.
* JavaScript strings are Lean `String`s; splitting and trimming are defined
  structurally over `List Char` so that everything evaluates in the kernel.
* The external generative-AI service is an oracle parameter: each simulated
  call outcome is an `Except String` value supplied to the function under
  verification.  External call counts are returned explicitly so that
  "no call is issued" is a provable statement.
* React `setState` commits are modelled as a list of successive
  `DashboardState` snapshots (the trace of committed states).
-/

/-! ## JavaScript string and number primitives -/

/-- Splits a character list at every occurrence of `sep`, keeping empty
segments, exactly like JavaScript `String.prototype.split` with a
single-character separator. -/
def splitOnChar (sep : Char) (cs : List Char) : List (List Char) :=
  cs.foldr
    (fun c acc =>
      if c = sep then [] :: acc
      else
        match acc with
        | h :: t => (c :: h) :: t
        | [] => [[c]])
    [[]]

/-- String-level wrapper for `splitOnChar`; models `s.split(sep)` for a
one-character separator. -/
def splitString (sep : Char) (s : String) : List String :=
  (splitOnChar sep s.toList).map List.asString

/-- Drops whitespace from both ends of a character list; models
`String.prototype.trim` (restricted to the ASCII whitespace the Lean
`Char.isWhitespace` predicate recognises). -/
def trimChars (cs : List Char) : List Char :=
  ((cs.dropWhile Char.isWhitespace).reverse.dropWhile Char.isWhitespace).reverse

/-- A quote character: `'` (code 39) or `"` (code 34). -/
def isQuoteChar (c : Char) : Bool :=
  c = Char.ofNat 39 ∨ c = Char.ofNat 34

/-- Models the parser's field cleaner
`const clean = (s) => s ? s.replace(/['"]/g, '').trim() : ''`:
every quote character is removed (anywhere in the string), then the result
is trimmed of leading/trailing whitespace. -/
def clean (s : String) : String :=
  if s = "" then ""
  else (trimChars (s.toList.filter (fun c => ¬ isQuoteChar c))).asString

/-- Numeric value of a list of decimal digit characters. -/
def digitsToNat (ds : List Char) : ℕ :=
  ds.foldl (fun acc c => 10 * acc + (c.toNat - 48)) 0

/-- Whether `c` is a hexadecimal digit. -/
def isHexDigit (c : Char) : Bool :=
  c.isDigit ∨ ('a' ≤ c ∧ c ≤ 'f') ∨ ('A' ≤ c ∧ c ≤ 'F')

/-- Numeric value of one hexadecimal digit character. -/
def hexDigitVal (c : Char) : ℕ :=
  if c.isDigit then c.toNat - 48
  else if 'a' ≤ c ∧ c ≤ 'f' then c.toNat - 87
  else c.toNat - 55

/-- Numeric value of a list of hexadecimal digit characters. -/
def hexToNat (ds : List Char) : ℕ :=
  ds.foldl (fun acc c => 16 * acc + hexDigitVal c) 0

/-- Models JavaScript `parseFloat`: skip leading whitespace, take an optional
sign, then the longest prefix of the form `digits [. digits] [e[±]digits]`
(a bare `.` with digits on at least one side is accepted, a trailing
exponent marker without digits is ignored).  `none` models `NaN`.  The
model idealises doubles as exact rationals; the `Infinity` literal is
outside the model. -/
def jsParseFloat (s : String) : Option ℚ :=
  let cs := s.toList.dropWhile Char.isWhitespace
  let signAndRest : Bool × List Char :=
    match cs with
    | '+' :: rest => (false, rest)
    | '-' :: rest => (true, rest)
    | _ => (false, cs)
  let neg := signAndRest.1
  let cs0 := signAndRest.2
  let intPart := cs0.takeWhile Char.isDigit
  let cs1 := cs0.dropWhile Char.isDigit
  let fracAndRest : List Char × List Char :=
    match cs1 with
    | '.' :: rest => (rest.takeWhile Char.isDigit, rest.dropWhile Char.isDigit)
    | _ => ([], cs1)
  let fracPart := fracAndRest.1
  let cs2 := fracAndRest.2
  if intPart = [] ∧ fracPart = [] then none
  else
    let exp : ℤ :=
      match cs2 with
      | c :: rest =>
        if c = 'e' ∨ c = 'E' then
          let esignAndRest : Bool × List Char :=
            match rest with
            | '+' :: r => (false, r)
            | '-' :: r => (true, r)
            | _ => (false, rest)
          let eds := esignAndRest.2.takeWhile Char.isDigit
          if eds = [] then 0
          else if esignAndRest.1 then -(digitsToNat eds : ℤ) else (digitsToNat eds : ℤ)
        else 0
      | [] => 0
    let num : ℤ :=
      ((digitsToNat intPart * 10 ^ fracPart.length + digitsToNat fracPart)
        * 10 ^ exp.toNat : ℕ)
    let den : ℕ := 10 ^ fracPart.length * 10 ^ (-exp).toNat
    some (mkRat (if neg then -num else num) den)

/-- Models JavaScript `parseInt` with no radix argument: skip leading
whitespace, take an optional sign, then either a `0x`/`0X`-prefixed run of
hexadecimal digits or a run of decimal digits (longest prefix; anything
after it is ignored).  `none` models `NaN`. -/
def jsParseInt (s : String) : Option ℤ :=
  let cs := s.toList.dropWhile Char.isWhitespace
  let signAndRest : ℤ × List Char :=
    match cs with
    | '+' :: rest => (1, rest)
    | '-' :: rest => (-1, rest)
    | _ => (1, cs)
  let sign := signAndRest.1
  match signAndRest.2 with
  | '0' :: x :: rest =>
    if x = 'x' ∨ x = 'X' then
      let hds := rest.takeWhile isHexDigit
      if hds = [] then none else some (sign * (hexToNat hds : ℤ))
    else
      some (sign * (digitsToNat (('0' :: x :: rest).takeWhile Char.isDigit) : ℤ))
  | other =>
    let ds := other.takeWhile Char.isDigit
    if ds = [] then none else some (sign * (digitsToNat ds : ℤ))

/-! ## Data model (from `types.ts`) -/

/-- One stock record (`interface Stock` in `types.ts`).  `score = none`
models a non-number score (JS `NaN` or `undefined`); the parser stores
`some 0` when the score field is absent.  `reason = none` models
`undefined`. -/
structure Stock where
  symbol : String
  name : String
  sector : String
  price : ℚ
  changePercent : ℚ
  marketCap : String
  reason : Option String
  score : Option ℤ
  deriving DecidableEq, Repr

/-- Citation metadata (`interface Source` in `types.ts`). -/
structure Source where
  title : String
  uri : String
  deriving DecidableEq, Repr

/-- One valuation-method estimate (`interface ValuationMetric`).  The JSON
cast in the source is unchecked, so the enum-valued fields are plain
strings. -/
structure ValuationMetric where
  method : String
  value : ℚ
  details : String
  deriving DecidableEq, Repr

/-- The structured analysis record (`interface StockAnalysis`). -/
structure StockAnalysis where
  companyName : String
  currentPrice : ℚ
  intrinsicValue : ℚ
  marginOfSafety : ℚ
  recommendation : String
  valuationMetrics : List ValuationMetric
  sentimentScore : ℚ
  sentimentLabel : String
  sentimentSummary : String
  sectorMomentum : String
  strengths : List String
  risks : List String
  sources : List Source
  deriving DecidableEq, Repr

/-- The two view modes of `DashboardState.view` (the spec's LIST is the
source's `'dashboard'`, DETAIL is `'detail'`). -/
inductive View where
  | dashboard
  | detail
  deriving DecidableEq, Repr

/-- The dashboard state (`interface DashboardState`). -/
structure DashboardState where
  stocks : List Stock
  selectedStock : Option Stock
  analysis : Option StockAnalysis
  loading : Bool
  view : View
  scanMode : Bool
  progress : ℤ
  scanStatus : String
  deriving DecidableEq, Repr

/-! ## The defensive CSV parser (`parseStockCSV` in `geminiService.ts`) -/

/-- Parses one retained CSV line, the body of the `for` loop of
`parseStockCSV`.  Returns `none` when the line yields no record (fewer
than 6 fields, or a price that does not parse).  `parts.getD i ""`
conflates a missing field (JS `undefined`) with the empty string; both are
falsy and `clean` maps both to `""`, so the conflation is faithful at
every use site. -/
def parseLine (line : String) : Option Stock :=
  let parts := splitString ',' line
  if 6 ≤ parts.length then
    match jsParseFloat (clean (parts.getD 3 "")) with
    | none => none
    | some price =>
      some
        { symbol := clean (parts.getD 0 "")
          name := clean (parts.getD 1 "")
          sector := clean (parts.getD 2 "")
          price := price
          changePercent := (jsParseFloat (clean (parts.getD 4 ""))).getD 0
          marketCap := clean (parts.getD 5 "")
          reason :=
            if parts.getD 7 "" ≠ "" then some (clean (parts.getD 7 ""))
            else if parts.getD 6 "" ≠ "" ∧ (jsParseInt (parts.getD 6 "")).isNone then
              some (clean (parts.getD 6 ""))
            else none
          score :=
            if parts.getD 6 "" ≠ "" then jsParseInt (clean (parts.getD 6 "")) else some 0 }
  else none

/-- Models `parseStockCSV`: split the text into lines, keep only lines that
contain a comma, and parse each retained line, collecting the records in
input order. -/
def parseStockCSV (text : String) : List Stock :=
  ((splitString '\n' text).filter (fun l => l.toList.contains ',')).filterMap parseLine

example :
    (parseStockCSV "X,Y,Z,10.5,1.2,1T,Good pick").map Stock.score = [none] := by decide

example :
    (parseStockCSV "X,Y,Z,10.5,1.2,1T,Good pick").map Stock.reason = [some "Good pick"] := by
  decide

example :
    (parseStockCSV "X,Y,Z,10.5,1.2,1T,87,Strong fundamentals").map Stock.score =
      [some 87] := by decide

example : parseStockCSV "garbage\nnoise" = [] := by decide

/-! ## Service wrappers (`geminiService.ts`)

Each wrapper takes the credential (`apiKey`, the empty string modelling a
missing `process.env.API_KEY`) and the outcome of the external call as an
`Except String String` oracle (`.error` = the promise rejected, `.ok t` =
the service responded with text `t`; a response whose `text` property is
absent is modelled as `.ok ""` because the source immediately replaces it
with `''` or a placeholder).  Each wrapper also returns the number of
external calls issued, so that "no call is made" is provable. -/

/-- Models `scanMarketSector`: with no credential, return `[]` without
calling; otherwise issue one call, parse the response text on success and
swallow any error into `[]`. -/
def scanMarketSector (apiKey : String) (outcome : Except String String) :
    List Stock × ℕ :=
  if apiKey = "" then ([], 0)
  else
    match outcome with
    | .ok text => (parseStockCSV text, 1)
    | .error _ => ([], 1)

/-- Models `fetchMarketSnapshot`: identical error discipline to
`scanMarketSector`, with the fixed watch-list prompt. -/
def fetchMarketSnapshot (apiKey : String) (outcome : Except String String) :
    List Stock × ℕ :=
  if apiKey = "" then ([], 0)
  else
    match outcome with
    | .ok text => (parseStockCSV text, 1)
    | .error _ => ([], 1)

/-- Result of the gather phase when its call succeeds: the response text
(`""` models a missing `text` property) and the sources extracted from the
grounding metadata. -/
structure GatherResult where
  text : String
  sources : List Source
  deriving DecidableEq, Repr

/-- The context string used by the extract phase, from the gather outcome:
`searchResponse.text || "No specific search data found."` on success, the
fixed placeholder when the gather call failed. -/
def searchContextOf (gather : Except String GatherResult) : String :=
  match gather with
  | .ok r => if r.text = "" then "No specific search data found." else r.text
  | .error _ => "Search unavailable. Use internal knowledge base."

/-- The source list carried to the final record: the gathered sources on
success, `[]` when the gather call failed. -/
def sourcesOf (gather : Except String GatherResult) : List Source :=
  match gather with
  | .ok r => r.sources
  | .error _ => []

/-- Processes the extract-phase response (the `try` block around the second
`generateContent` call): a rejected call propagates, an empty text throws
`"No response from Gemini"`, an unparseable body throws the JSON error,
and on success the gathered `sources` are attached to the parsed record.
`parse` is the oracle for `JSON.parse(text) as StockAnalysis`
(`none` = `JSON.parse` threw). -/
def runExtract (extractOutcome : Except String String)
    (parse : String → Option StockAnalysis) (sources : List Source) :
    Except String StockAnalysis :=
  match extractOutcome with
  | .error e => .error e
  | .ok text =>
    if text = "" then .error "No response from Gemini"
    else
      match parse text with
      | none => .error "JSON parse error"
      | some a => .ok { a with sources := sources }

/-- Models `analyzeStockWithGemini`: throws `"API Key is missing"` without
any call when no credential is configured; otherwise runs the gather phase
(its failure is non-fatal), then the extract phase on the spliced context.
`extract` maps the context string spliced into the second prompt to that
call's outcome.  Returns the result together with the number of external
calls issued. -/
def analyzeStockWithGemini (apiKey : String) (symbol : String)
    (currentPrice : ℚ) (sector : String)
    (gather : Except String GatherResult)
    (extract : String → Except String String)
    (parse : String → Option StockAnalysis) :
    Except String StockAnalysis × ℕ :=
  if apiKey = "" then (.error "API Key is missing", 0)
  else
    (runExtract (extract (searchContextOf gather)) parse (sourcesOf gather), 2)

/-! ## Orchestrators (`App` component, `src/unnamed/part_000`) -/

/-- Conviction-score sort key: `score || 0` in the comparator
`(b.score || 0) - (a.score || 0)` (both `NaN`/`undefined`, modelled `none`,
and an actual `0` are falsy, so the key is `getD 0`). -/
def scoreKey (s : Stock) : ℤ :=
  s.score.getD 0

/-- The ordering used by the scan's sort: `a` may precede `b` exactly when
the comparator `(b.score || 0) - (a.score || 0)` is `≤ 0`. -/
def scanLe (a b : Stock) : Prop :=
  scoreKey b ≤ scoreKey a

instance : DecidableRel scanLe := fun a b => by
  unfold scanLe; infer_instance

instance : IsTotal Stock scanLe :=
  ⟨fun a b => le_total (scoreKey b) (scoreKey a)⟩

instance : IsTrans Stock scanLe :=
  ⟨fun _ _ _ h h' => le_trans h' h⟩

/-- Models `allPicks.sort((a, b) => (b.score || 0) - (a.score || 0))`.
ECMAScript guarantees `Array.prototype.sort` is stable, and a stable sort
is extensionally unique given its comparator, so insertion sort by
`scanLe` (which keeps the earlier element first on ties) is a faithful
model. -/
def scanSort (l : List Stock) : List Stock :=
  l.insertionSort scanLe

/-- The fixed ordered sector list of `handleScanForValue`. -/
def sectors : List String :=
  ["Financial Services & Banking",
   "IT & Technology",
   "Automobile & Consumer Goods",
   "Energy, Power & Infrastructure",
   "Pharma & Healthcare"]

/-- Models `Math.round`: nearest integer, ties toward positive infinity, that is
`⌊q + 1/2⌋`, computed as the floor division `(2·num + den) / (2·den)` so
that it evaluates in the kernel. -/
def jsRound (q : ℚ) : ℤ :=
  Int.fdiv (2 * q.num + (q.den : ℤ)) (2 * (q.den : ℤ))

/-- The sector loop of `handleScanForValue`.  Each iteration first commits
the progress/status update, then runs the sector scan; `scanFn` may fail
(`Except.error` models a thrown exception), in which case the commits made
so far survive and the error propagates to the surrounding `catch`.
Returns the commits made by the loop, the state after the last commit, and
either the accumulated picks or the error. -/
def scanStepsAux (scanFn : String → Except String (List Stock)) (total : ℕ) :
    List String → ℕ → DashboardState → List Stock →
    List DashboardState × DashboardState × Except String (List Stock)
  | [], _, s, acc => ([], s, .ok acc)
  | sec :: rest, i, s, acc =>
    let s' := { s with
      progress := jsRound (mkRat ((i : ℤ) * 100) total),
      scanStatus := "Analyzing " ++ sec ++ "..." }
    match scanFn sec with
    | .error e => ([s'], s', .error e)
    | .ok picks =>
      let r := scanStepsAux scanFn total rest (i + 1) s' (acc ++ picks)
      (s' :: r.1, r.2)

/-- Models `handleScanForValue`: the initial reset commit, the sector loop,
then either the success commit (sorted, truncated picks, progress 100) or
the `catch` commit (loading and scanMode cleared, accumulated picks
discarded from the commit but `stocks` left as last committed).  Returns
the full list of committed states and whether the `catch` branch ran. -/
def handleScanForValue (scanFn : String → Except String (List Stock))
    (s0 : DashboardState) : List DashboardState × Bool :=
  let s1 := { s0 with
    loading := true, scanMode := true, progress := 0,
    stocks := [], scanStatus := "Initializing Nifty 200 Scan..." }
  let r := scanStepsAux scanFn sectors.length sectors 0 s1 []
  match r.2.2 with
  | .ok allPicks =>
    let sF := { r.2.1 with
      stocks := (scanSort allPicks).take 20,
      loading := false, progress := 100, scanStatus := "Scan Complete" }
    (s1 :: r.1 ++ [sF], false)
  | .error _ =>
    (s1 :: r.1 ++ [{ r.2.1 with loading := false, scanMode := false }], true)

/-- The scan loop as actually instantiated by the app: each sector's picks
come from `scanMarketSector`, which never throws, so the per-sector step
is always `Except.ok`. -/
def appScanFn (apiKey : String) (outcomes : String → Except String String) :
    String → Except String (List Stock) :=
  fun sec => .ok (scanMarketSector apiKey (outcomes sec)).1

/-- JavaScript `a || b` on (idealised, non-`NaN`) numbers: `a` unless it is
zero. -/
def jsOrQ (a b : ℚ) : ℚ :=
  if a = 0 then b else a

/-- JavaScript `a || b` on strings: `a` unless it is empty. -/
def jsOrS (a b : String) : String :=
  if a = "" then b else a

/-- Models `analyzeStock` in the `App` component as a trace of committed
states.  `price` is the caller-supplied known price and `result` the
outcome of `analyzeStockWithGemini`.  The success commit rebuilds the
selected candidate via
`price: analysis.currentPrice || price || prev.selectedStock!.price`,
`name: analysis.companyName || prev.selectedStock!.name`, and the
`'Unknown' → 'Analysed'` sector rewrite.  The source asserts
`prev.selectedStock` non-null (`!`); the model leaves `none` unchanged
(every call site sets it just before). -/
def analyzeStock (s0 : DashboardState) (price : ℚ)
    (result : Except String StockAnalysis) : List DashboardState :=
  let s1 := { s0 with loading := true, view := View.detail }
  match result with
  | .ok analysis =>
    [s1,
     { s1 with
        loading := false
        analysis := some analysis
        selectedStock := s1.selectedStock.map (fun sel =>
          { sel with
            price := jsOrQ analysis.currentPrice (jsOrQ price sel.price)
            name := jsOrS analysis.companyName sel.name
            sector := if sel.sector = "Unknown" then "Analysed" else sel.sector }) }]
  | .error _ =>
    [s1, { s1 with loading := false, view := View.dashboard }]

/-- The field cleaning the specification describes (refinement target,
stated from the spec's words, not from the source): strip only leading and
trailing quote characters and whitespace, removing nothing else. -/
def stripQuotesWsEnds (s : String) : String :=
  (((s.toList.dropWhile (fun c => isQuoteChar c ∨ c.isWhitespace)).reverse.dropWhile
      (fun c => isQuoteChar c ∨ c.isWhitespace)).reverse).asString

/-- Evaluation of `parseLine` on a line that passes both guards: the
record is built positionally from the cleaned fields. -/
theorem parseLine_eq (line : String) (price : ℚ)
    (h6 : 6 ≤ (splitString ',' line).length)
    (hp : jsParseFloat (clean ((splitString ',' line).getD 3 "")) = some price) :
    parseLine line = some
      { symbol := clean ((splitString ',' line).getD 0 "")
        name := clean ((splitString ',' line).getD 1 "")
        sector := clean ((splitString ',' line).getD 2 "")
        price := price
        changePercent := (jsParseFloat (clean ((splitString ',' line).getD 4 ""))).getD 0
        marketCap := clean ((splitString ',' line).getD 5 "")
        reason :=
          if (splitString ',' line).getD 7 "" ≠ "" then
            some (clean ((splitString ',' line).getD 7 ""))
          else if (splitString ',' line).getD 6 "" ≠ "" ∧
              (jsParseInt ((splitString ',' line).getD 6 "")).isNone then
            some (clean ((splitString ',' line).getD 6 ""))
          else none
        score :=
          if (splitString ',' line).getD 6 "" ≠ "" then
            jsParseInt (clean ((splitString ',' line).getD 6 ""))
          else some 0 } := by
  simp only [parseLine, hp]
  rw [if_pos h6]

/-! ## Claim C1: score and reason extraction from fields 6/7 -/

/-- C1 counterexample.  On the spec's own legacy-fallback example line the
7th field is present but non-numeric; the claim says the produced record
has `score = 0`, but the code computes `parseInt(clean(parts[6]))`, which
is `NaN` (`none`), not `0`.  The `reason` fallback itself does hold. -/
theorem c1_counterexample :
    (parseStockCSV "X,Y,Z,10.5,1.2,1T,Good pick").map Stock.score = [none] ∧
    (parseStockCSV "X,Y,Z,10.5,1.2,1T,Good pick").map Stock.reason = [some "Good pick"] ∧
    [Option.none (α := ℤ)] ≠ [some 0] := by
  refine ⟨by decide, by decide, by decide⟩

/-- C1 (amended).  For a parsed line (price parses) split on commas:
if there are exactly 7 fields and the 7th is nonempty and non-numeric
(both raw and cleaned), the record's `score` is `NaN` (modelled `none`,
not `0`) and its `reason` is the cleaned 7th field; if a nonempty 8th
field exists, its cleaned text is the `reason`, taking priority over the
field-6 fallback; with exactly 6 fields, `score = 0` and `reason` is
undefined. -/
theorem c1_score_reason_fallback (line : String) (price : ℚ)
    (hp : jsParseFloat (clean ((splitString ',' line).getD 3 "")) = some price) :
    ((splitString ',' line).length = 7 →
      (splitString ',' line).getD 6 "" ≠ "" →
      jsParseInt ((splitString ',' line).getD 6 "") = none →
      jsParseInt (clean ((splitString ',' line).getD 6 "")) = none →
      ∃ st, parseLine line = some st ∧ st.score = none ∧
        st.reason = some (clean ((splitString ',' line).getD 6 ""))) ∧
    (8 ≤ (splitString ',' line).length →
      (splitString ',' line).getD 7 "" ≠ "" →
      ∃ st, parseLine line = some st ∧
        st.reason = some (clean ((splitString ',' line).getD 7 ""))) ∧
    ((splitString ',' line).length = 6 →
      ∃ st, parseLine line = some st ∧ st.score = some 0 ∧ st.reason = none) := by
  refine ⟨?_, ?_, ?_⟩
  · intro hlen h6 hraw hclean
    have h7 : (splitString ',' line).getD 7 "" = "" :=
      List.getD_eq_default _ _ (by omega)
    simp only [List.getD_eq_getElem?_getD] at h6 hraw hclean h7
    refine ⟨_, parseLine_eq line price (by omega) hp, ?_, ?_⟩
    · simp [h6, hclean]
    · simp [h6, h7, hraw]
  · intro hlen h7
    simp only [List.getD_eq_getElem?_getD] at h7
    refine ⟨_, parseLine_eq line price (by omega) hp, ?_⟩
    simp [h7]
  · intro hlen
    have h6 : (splitString ',' line).getD 6 "" = "" :=
      List.getD_eq_default _ _ (by omega)
    have h7 : (splitString ',' line).getD 7 "" = "" :=
      List.getD_eq_default _ _ (by omega)
    simp only [List.getD_eq_getElem?_getD] at h6 h7
    refine ⟨_, parseLine_eq line price (by omega) hp, ?_, ?_⟩
    · simp [h6]
    · simp [h6, h7]

/-- C1 witness: the amended theorem applied to the spec's legacy example. -/
theorem c1_witness :
    ∃ st, parseLine "X,Y,Z,10.5,1.2,1T,Good pick" = some st ∧ st.score = none ∧
      st.reason = some (clean ((splitString ',' "X,Y,Z,10.5,1.2,1T,Good pick").getD 6 "")) :=
  (c1_score_reason_fallback "X,Y,Z,10.5,1.2,1T,Good pick" (mkRat 21 2) (by decide)).1
    (by decide) (by decide) (by decide) (by decide)

/-! ## Claim C2: positional mapping and field cleaning -/

/-- C2 counterexample.  The claim says only leading/trailing quote
characters and whitespace are removed from each field; the code's
`replace(/['"]g, '')` removes quotes anywhere, so a field with an interior
quote is altered: the symbol field of `a"b,...` comes out as `ab`, not the
untouched `a"b` the claim demands. -/
theorem c2_counterexample :
    (parseStockCSV "a\"b,Y,Z,10.5,1.2,1T").map Stock.symbol = ["ab"] ∧
    stripQuotesWsEnds "a\"b" = "a\"b" ∧
    ("ab" : String) ≠ "a\"b" := by
  refine ⟨by decide, by decide, by decide⟩

/-- C2 (amended).  Every line splitting into at least 6 comma-separated
fields whose cleaned 4th field parses as a number yields exactly one
record, mapped positionally, where each field is cleaned by removing all
quote characters (anywhere, not only at the ends) and then trimming
leading/trailing whitespace; `changePercent` defaults to 0 when the 5th
field fails to parse. -/
theorem c2_positional_mapping (line : String) (price : ℚ)
    (h6 : 6 ≤ (splitString ',' line).length)
    (hp : jsParseFloat (clean ((splitString ',' line).getD 3 "")) = some price) :
    ∃ st, parseLine line = some st ∧
      st.symbol = clean ((splitString ',' line).getD 0 "") ∧
      st.name = clean ((splitString ',' line).getD 1 "") ∧
      st.sector = clean ((splitString ',' line).getD 2 "") ∧
      st.price = price ∧
      st.changePercent = (jsParseFloat (clean ((splitString ',' line).getD 4 ""))).getD 0 ∧
      st.marketCap = clean ((splitString ',' line).getD 5 "") ∧
      (jsParseFloat (clean ((splitString ',' line).getD 4 "")) = none →
        st.changePercent = 0) := by
  refine ⟨_, parseLine_eq line price h6 hp, rfl, rfl, rfl, rfl, rfl, rfl, ?_⟩
  intro hc
  simp only [List.getD_eq_getElem?_getD] at hc
  simp [hc]

/-- C2 witness: the amended theorem applied to a concrete well-formed line
with an unparseable change-percent field. -/
theorem c2_witness :
    ∃ st, parseLine "HDFCBANK,HDFC Bank,Financials,1450.00,n/a,11.5T" = some st ∧
      st.symbol = clean ((splitString ',' "HDFCBANK,HDFC Bank,Financials,1450.00,n/a,11.5T").getD 0 "") ∧
      st.name = clean ((splitString ',' "HDFCBANK,HDFC Bank,Financials,1450.00,n/a,11.5T").getD 1 "") ∧
      st.sector = clean ((splitString ',' "HDFCBANK,HDFC Bank,Financials,1450.00,n/a,11.5T").getD 2 "") ∧
      st.price = 1450 ∧
      st.changePercent = (jsParseFloat (clean ((splitString ',' "HDFCBANK,HDFC Bank,Financials,1450.00,n/a,11.5T").getD 4 ""))).getD 0 ∧
      st.marketCap = clean ((splitString ',' "HDFCBANK,HDFC Bank,Financials,1450.00,n/a,11.5T").getD 5 "") ∧
      (jsParseFloat (clean ((splitString ',' "HDFCBANK,HDFC Bank,Financials,1450.00,n/a,11.5T").getD 4 "")) = none →
        st.changePercent = 0) :=
  c2_positional_mapping "HDFCBANK,HDFC Bank,Financials,1450.00,n/a,11.5T" 1450
    (by decide) (by decide)

/-! ## Claim C6: totality, silent line skipping, order preservation -/

/-- C6.  The parser is a total function: it filters to lines containing a
comma and maps `parseLine` over them in input order (first conjunct, its
definition — no exception path exists); every line with fewer than 6
fields or a non-parsing price yields no record (second conjunct); and
parsing is per-line independent with no early termination: the records of
a concatenation of line lists are the concatenation of the records
(third conjunct). -/
theorem c6_parser_total_order_preserving :
    (∀ text, parseStockCSV text =
      ((splitString '\n' text).filter (fun l => l.toList.contains ',')).filterMap parseLine) ∧
    (∀ line, ((splitString ',' line).length < 6 ∨
        jsParseFloat (clean ((splitString ',' line).getD 3 "")) = none) →
      parseLine line = none) ∧
    (∀ l₁ l₂ : List String,
      (l₁ ++ l₂).filterMap parseLine = l₁.filterMap parseLine ++ l₂.filterMap parseLine) := by
  refine ⟨fun _ => rfl, ?_, fun l₁ l₂ => List.filterMap_append l₁ l₂ parseLine⟩
  intro line h
  rcases h with h | h
  · simp only [parseLine]
    rw [if_neg (by omega)]
  · simp only [parseLine, h]
    split <;> rfl

/-- C6 witness: the theorem applied to a concrete garbage line (too few
fields) inside a concrete two-line text. -/
theorem c6_witness :
    parseLine "just,noise" = none :=
  c6_parser_total_order_preserving.2.1 "just,noise" (Or.inl (by decide))

/-! ## Concrete sample states used by witnesses -/

/-- The `useState` initialiser of the `App` component. -/
def initialState : DashboardState :=
  { stocks := [], selectedStock := none, analysis := none, loading := true,
    view := View.dashboard, scanMode := false, progress := 0, scanStatus := "" }

/-- The placeholder candidate built by `handleSearchSelect` for the ticker
`RELIANCE` (price 0, sector `'Unknown'`, no score or reason). -/
def sampleStock : Stock :=
  { symbol := "RELIANCE", name := "RELIANCE", sector := "Unknown", price := 0,
    changePercent := 0, marketCap := "", reason := none, score := none }

/-- The state after `handleSearchSelect` commits the placeholder candidate. -/
def searchState : DashboardState :=
  { initialState with selectedStock := some sampleStock }

/-- A concrete well-formed structured analysis response. -/
def sampleAnalysis : StockAnalysis :=
  { companyName := "Reliance Industries Limited", currentPrice := mkRat 2900 1,
    intrinsicValue := mkRat 3200 1, marginOfSafety := mkRat 10 1,
    recommendation := "BUY", valuationMetrics := [], sentimentScore := 40,
    sentimentLabel := "Positive", sentimentSummary := "", sectorMomentum := "",
    strengths := [], risks := [], sources := [] }

/-! ## Claim C8: missing credential short-circuits -/

/-- C8.  With no credential configured (empty `API_KEY`), the sector scan
and the snapshot return `[]` with zero external calls, and the analysis
fails with the explicit missing-credential error, also with zero external
calls. -/
theorem c8_missing_credential (outcome : Except String String) (symbol : String)
    (currentPrice : ℚ) (sector : String) (gather : Except String GatherResult)
    (extract : String → Except String String) (parse : String → Option StockAnalysis) :
    scanMarketSector "" outcome = ([], 0) ∧
    fetchMarketSnapshot "" outcome = ([], 0) ∧
    analyzeStockWithGemini "" symbol currentPrice sector gather extract parse =
      (.error "API Key is missing", 0) :=
  ⟨rfl, rfl, rfl⟩

/-! ## Claim C7: gather failure is non-fatal; sources are attached -/

/-- C7.  When the gather phase fails, the analysis still proceeds: the
extract phase is invoked on the fixed placeholder context with an empty
source list.  Whenever the extract phase succeeds, the gather phase's
source list (possibly empty) is the `sources` field of the returned
record. -/
theorem c7_gather_failure_and_sources (apiKey : String) (symbol : String)
    (currentPrice : ℚ) (sector : String) (e : String)
    (gather : Except String GatherResult)
    (extract : String → Except String String) (parse : String → Option StockAnalysis) :
    (searchContextOf (.error e) = "Search unavailable. Use internal knowledge base." ∧
     sourcesOf (Except.error e) = [] ∧
     (apiKey ≠ "" →
       analyzeStockWithGemini apiKey symbol currentPrice sector (.error e) extract parse =
         (runExtract (extract "Search unavailable. Use internal knowledge base.")
            parse [], 2))) ∧
    (∀ a,
      (analyzeStockWithGemini apiKey symbol currentPrice sector gather extract parse).1 =
        .ok a →
      a.sources = sourcesOf gather) := by
  constructor
  · refine ⟨rfl, rfl, ?_⟩
    intro hk
    simp [analyzeStockWithGemini, hk, searchContextOf, sourcesOf]
  · intro a ha
    by_cases hk : apiKey = ""
    · simp [analyzeStockWithGemini, hk] at ha
    · simp only [analyzeStockWithGemini, if_neg hk] at ha
      rcases hx : extract (searchContextOf gather) with e' | text
      · rw [hx] at ha
        simp [runExtract] at ha
      · rw [hx] at ha
        simp only [runExtract] at ha
        by_cases ht : text = ""
        · rw [if_pos ht] at ha
          simp at ha
        · rw [if_neg ht] at ha
          rcases hpp : parse text with _ | b
          · rw [hpp] at ha
            simp at ha
          · rw [hpp] at ha
            simp only [Except.ok.injEq] at ha
            rw [← ha]

/-- C7 witness: a failing gather followed by a succeeding extract, at
concrete inputs. -/
theorem c7_witness :
    ("k" : String) ≠ "" ∧
    analyzeStockWithGemini "k" "RELIANCE" 0 "Unknown" (.error "offline")
        (fun _ => .ok "body") (fun _ => some sampleAnalysis) =
      (runExtract ((fun _ : String => Except.ok "body")
          "Search unavailable. Use internal knowledge base.")
        (fun _ => some sampleAnalysis) [], 2) :=
  ⟨by decide,
   (c7_gather_failure_and_sources "k" "RELIANCE" 0 "Unknown" "offline"
      (.error "offline") (fun _ => .ok "body") (fun _ => some sampleAnalysis)).1.2.2
     (by decide)⟩

/-! ## Claim C3: extract failure reverts to the list view -/

/-- C3.  If the analysis pipeline fails (which it does whenever the extract
phase's call fails, returns an empty body, or returns an unparseable
body), the `analyzeStock` operation's final commit has `loading = false`
and `view = dashboard` (LIST), and — the analysis slot being empty at
invocation, as it is at every call site — every committed state during
the operation has `analysis = none`: no partial result is ever
committed. -/
theorem c3_extract_failure_reverts (s0 : DashboardState) (p : ℚ) (e : String)
    (hA : s0.analysis = none) :
    ((analyzeStock s0 p (.error e)).getLastD s0 =
      { s0 with loading := false, view := View.dashboard } ∧
     ∀ s ∈ analyzeStock s0 p (.error e), s.analysis = none) ∧
    (∀ apiKey symbol currentPrice sector gather extract parse,
      ((∃ e', extract (searchContextOf gather) = .error e') ∨
       extract (searchContextOf gather) = .ok "" ∨
       (∃ t, extract (searchContextOf gather) = .ok t ∧ parse t = none)) →
      ∃ e', (analyzeStockWithGemini apiKey symbol currentPrice sector
          gather extract parse).1 = .error e') := by
  constructor
  · constructor
    · rfl
    · intro s hs
      simp only [analyzeStock, List.mem_cons, List.not_mem_nil, or_false] at hs
      rcases hs with rfl | rfl
      · exact hA
      · exact hA
  · intro apiKey symbol currentPrice sector gather extract parse hfail
    by_cases hk : apiKey = ""
    · exact ⟨"API Key is missing", by simp [analyzeStockWithGemini, hk]⟩
    · simp only [analyzeStockWithGemini, if_neg hk]
      rcases hfail with ⟨e', hx⟩ | hx | ⟨t, hx, hpp⟩
      · rw [hx]
        exact ⟨e', rfl⟩
      · rw [hx]
        exact ⟨"No response from Gemini", rfl⟩
      · rw [hx]
        simp only [runExtract]
        by_cases ht : t = ""
        · rw [if_pos ht]
          exact ⟨"No response from Gemini", rfl⟩
        · rw [if_neg ht, hpp]
          exact ⟨"JSON parse error", rfl⟩

/-- C3 witness: a concrete failed run from the app's initial state. -/
theorem c3_witness :
    initialState.analysis = none ∧
    (analyzeStock initialState 0 (.error "network")).getLastD initialState =
      { initialState with loading := false, view := View.dashboard } :=
  ⟨rfl, (c3_extract_failure_reverts initialState 0 "network" rfl).1.1⟩

/-! ## Claim C5: reconciliation of the selected candidate -/

/-- C5.  On a successful analysis, invoked as the app invokes it (the known
price is the selected candidate's price), the committed candidate's price
is the extracted `currentPrice` when nonzero and otherwise the known
price — in particular it stays 0 when both are 0; the name is replaced by
the extracted company name when nonempty; and the sector becomes
`'Analysed'` exactly when it was `'Unknown'`, otherwise it is kept. -/
theorem c5_reconciliation (s0 : DashboardState) (c : Stock) (p : ℚ)
    (a : StockAnalysis) (hSel : s0.selectedStock = some c) (hP : c.price = p) :
    ∃ c', ((analyzeStock s0 p (.ok a)).getLastD s0).selectedStock = some c' ∧
      c'.price = (if a.currentPrice = 0 then p else a.currentPrice) ∧
      (a.currentPrice = 0 → p = 0 → c'.price = 0) ∧
      c'.name = (if a.companyName = "" then c.name else a.companyName) ∧
      c'.sector = (if c.sector = "Unknown" then "Analysed" else c.sector) := by
  subst hP
  refine ⟨{ c with
      price := jsOrQ a.currentPrice (jsOrQ c.price c.price)
      name := jsOrS a.companyName c.name
      sector := if c.sector = "Unknown" then "Analysed" else c.sector },
    ?_, ?_, ?_, ?_, ?_⟩
  · simp [analyzeStock, hSel]
  · simp [jsOrQ]
  · intro h0 hp0
    simp [jsOrQ, h0, hp0]
  · simp [jsOrS]
  · rfl

/-- C5 witness: analysing the search placeholder (known price 0) with a
nonzero extracted price. -/
theorem c5_witness :
    searchState.selectedStock = some sampleStock ∧
    sampleStock.price = 0 ∧
    ∃ c', ((analyzeStock searchState 0 (.ok sampleAnalysis)).getLastD
        searchState).selectedStock = some c' ∧
      c'.price = (if sampleAnalysis.currentPrice = 0 then 0
        else sampleAnalysis.currentPrice) ∧
      (sampleAnalysis.currentPrice = 0 → (0 : ℚ) = 0 → c'.price = 0) ∧
      c'.name = (if sampleAnalysis.companyName = "" then sampleStock.name
        else sampleAnalysis.companyName) ∧
      c'.sector = (if sampleStock.sector = "Unknown" then "Analysed"
        else sampleStock.sector) :=
  ⟨rfl, rfl, c5_reconciliation searchState sampleStock 0 sampleAnalysis rfl rfl⟩

/-! ## Helper lemmas for the scan orchestrator -/

/-- When every per-sector step succeeds, the sector loop accumulates the
concatenation of the per-sector results in sector order. -/
theorem scanStepsAux_ok_res (f : String → List Stock) (total : ℕ) :
    ∀ (secs : List String) (i : ℕ) (s : DashboardState) (acc : List Stock),
      (scanStepsAux (fun sec => Except.ok (f sec)) total secs i s acc).2.2 =
        Except.ok (acc ++ (secs.map f).flatten) := by
  intro secs
  induction secs with
  | nil =>
    intro i s acc
    simp [scanStepsAux]
  | cons sec rest ih =>
    intro i s acc
    simp only [scanStepsAux]
    rw [ih]
    simp

/-- Inserting an element whose key differs from `k` does not change the
`k`-keyed subsequence. -/
theorem filter_orderedInsert_of_ne (x : Stock) (k : ℤ) (hx : ¬ scoreKey x = k)
    (l : List Stock) :
    (l.orderedInsert scanLe x).filter (fun s => scoreKey s == k) =
      l.filter (fun s => scoreKey s == k) := by
  induction l with
  | nil => simp [List.orderedInsert, hx]
  | cons b t ih =>
    simp only [List.orderedInsert]
    by_cases h : scanLe x b
    · rw [if_pos h]
      simp [List.filter_cons, hx]
    · rw [if_neg h]
      simp only [List.filter_cons]
      rw [ih]

/-- Inserting an element whose key equals `k` puts it in front of the
`k`-keyed subsequence: with the ordering `scanLe`, every element the
insertion skips over has a strictly larger key. -/
theorem filter_orderedInsert_of_eq (x : Stock) (k : ℤ) (hx : scoreKey x = k)
    (l : List Stock) :
    (l.orderedInsert scanLe x).filter (fun s => scoreKey s == k) =
      x :: l.filter (fun s => scoreKey s == k) := by
  induction l with
  | nil => simp [List.orderedInsert, hx]
  | cons b t ih =>
    simp only [List.orderedInsert]
    by_cases h : scanLe x b
    · rw [if_pos h]
      simp [List.filter_cons, hx]
    · rw [if_neg h]
      have hb : ¬ scoreKey b = k := by
        intro hbk
        exact h (by simp [scanLe, hbk, hx])
      simp only [List.filter_cons]
      rw [ih]
      simp [hb]

/-- Stability of the scan's sort: for every key value, the subsequence of
elements with that key is exactly the input's subsequence — equal scores
keep their input (append) order. -/
theorem scanSort_filter (k : ℤ) :
    ∀ l : List Stock,
      (scanSort l).filter (fun s => scoreKey s == k) =
        l.filter (fun s => scoreKey s == k) := by
  intro l
  induction l with
  | nil => rfl
  | cons x t ih =>
    simp only [scanSort, List.insertionSort] at *
    by_cases hx : scoreKey x = k
    · rw [filter_orderedInsert_of_eq x k hx, ih]
      simp [List.filter_cons, hx]
    · rw [filter_orderedInsert_of_ne x k hx, ih]
      simp [List.filter_cons, hx]

/-! ## Claim C4: committed scan list is the stable sorted truncation -/

/-- C4.  For every family of per-sector result lists, the stocks committed
by the scan's final commit are exactly the across-sector concatenation
(in fixed sector order) sorted by `scanSort` and truncated to 20; and
`scanSort` is a descending-by-score stable sort: it permutes its input,
its output is sorted under `scanLe` (score descending, missing score 0),
and every equal-score subsequence keeps its input order. -/
theorem c4_scan_sorted_truncated (f : String → List Stock) (s0 : DashboardState) :
    ((handleScanForValue (fun sec => Except.ok (f sec)) s0).1.getLastD s0).stocks =
      (scanSort ((sectors.map f).flatten)).take 20 ∧
    List.Perm (scanSort ((sectors.map f).flatten)) ((sectors.map f).flatten) ∧
    List.Sorted scanLe (scanSort ((sectors.map f).flatten)) ∧
    (∀ k : ℤ,
      (scanSort ((sectors.map f).flatten)).filter (fun s => scoreKey s == k) =
        ((sectors.map f).flatten).filter (fun s => scoreKey s == k)) := by
  refine ⟨?_, List.perm_insertionSort scanLe _, List.sorted_insertionSort scanLe _,
    fun k => scanSort_filter k _⟩
  simp only [handleScanForValue]
  rw [scanStepsAux_ok_res]
  dsimp only
  rw [List.getLastD_concat]
  simp

/-! ## Claim C9: progress sequence -/

/-- C9.  For every family of per-sector results, the committed progress
values are: 0 at the reset commit, then exactly
`round(i / total * 100)` for `i = 0..4` — the values `0, 20, 40, 60, 80`
— at the five loop commits before the final commit, then 100 at the final
commit; the whole committed sequence is monotonically non-decreasing. -/
theorem c9_progress_sequence (f : String → List Stock) (s0 : DashboardState) :
    (handleScanForValue (fun sec => Except.ok (f sec)) s0).1.map
        DashboardState.progress =
      0 :: [0, 20, 40, 60, 80] ++ [100] ∧
    (List.range 5).map (fun i => jsRound (mkRat ((i : ℤ) * 100) sectors.length)) =
      [0, 20, 40, 60, 80] ∧
    List.Chain' (fun a b => a ≤ b)
      ((handleScanForValue (fun sec => Except.ok (f sec)) s0).1.map
        DashboardState.progress) := by
  have hmap : (handleScanForValue (fun sec => Except.ok (f sec)) s0).1.map
      DashboardState.progress = 0 :: [0, 20, 40, 60, 80] ++ [100] := by
    simp only [handleScanForValue]
    rw [scanStepsAux_ok_res]
    simp [sectors, scanStepsAux]
    decide
  refine ⟨hmap, by decide, ?_⟩
  rw [hmap]
  norm_num [List.chain'_cons]

/-! ## Claim C10: per-sector failures never abort the scan -/

/-- C10.  A failed external call makes the sector scan and the snapshot
return the empty list instead of raising (their result type is total over
every oracle behaviour), so in the scan orchestrator as instantiated by
the app every per-sector step is a success and the abort (`catch`) branch
is unreachable: the failure flag is always `false`. -/
theorem c10_no_abort (apiKey : String) (outcomes : String → Except String String)
    (s0 : DashboardState) (e : String) :
    (scanMarketSector apiKey (.error e)).1 = [] ∧
    (fetchMarketSnapshot apiKey (.error e)).1 = [] ∧
    (handleScanForValue (appScanFn apiKey outcomes) s0).2 = false := by
  refine ⟨?_, ?_, ?_⟩
  · by_cases hk : apiKey = "" <;> simp [scanMarketSector, hk]
  · by_cases hk : apiKey = "" <;> simp [fetchMarketSnapshot, hk]
  · show (handleScanForValue
      (fun sec => Except.ok ((scanMarketSector apiKey (outcomes sec)).1)) s0).2 = false
    simp only [handleScanForValue]
    rw [scanStepsAux_ok_res]

